import Mathlib

/-!
Shallow embedding of `src/main.py` (gradient-descent animation) over the reals.

The Python script animates momentum gradient descent on a fixed 1-D loss
landscape.  The numerical core is:

* `loss_function` / `loss_gradient` (main.py lines 39-47);
* module constants `FPS`, `DURATION`, `TOTAL_FRAMES`, `DATA` (lines 16-19)
  and run constants `learning_rate = 0.002`, `momentum = 0.99` (lines 52-53);
* the per-frame update in `animate` (lines 92-100): gradient at the
  pre-update theta, velocity update, theta update, `np.clip` to `[-DATA, DATA]`;
* the per-frame display-range computation (lines 117-125).

Machine doubles are modelled as real numbers; `np.clip(x, lo, hi)` is
`min hi (max lo x)` (NumPy's documented semantics).  The driver
(`FuncAnimation` with `frames=TOTAL_FRAMES` and `init_func=init`) is modelled
as: the initial state is displayed once, then `animate` runs `TOTAL_FRAMES`
times in sequence, each call completing exactly one optimizer update and
emitting one frame record; `step_index` of a record is the number of
completed updates at the moment it is emitted.
-/

namespace GradientDescent

noncomputable section

/-- main.py line 42: `0.5*np.sin(3*x) + 0.3*np.sin(5*x) + 0.2*np.sin(7*x) + 0.1*x**2`. -/
def loss_function (x : ℝ) : ℝ :=
  0.5 * Real.sin (3 * x) + 0.3 * Real.sin (5 * x) + 0.2 * Real.sin (7 * x) + 0.1 * x ^ 2

/-- main.py line 47: `0.5*3*np.cos(3*x) + 0.3*5*np.cos(5*x) + 0.2*7*np.cos(7*x) + 0.2*x`. -/
def loss_gradient (x : ℝ) : ℝ :=
  0.5 * 3 * Real.cos (3 * x) + 0.3 * 5 * Real.cos (5 * x) + 0.2 * 7 * Real.cos (7 * x) + 0.2 * x

/-- main.py line 16. -/
def FPS : ℕ := 15

/-- main.py line 17. -/
def DURATION : ℕ := 30

/-- main.py line 18: `TOTAL_FRAMES = FPS * DURATION` (the adjacent comment says
1000 frames, but the computed value is 450). -/
def TOTAL_FRAMES : ℕ := FPS * DURATION

/-- main.py line 19: the half-width of the theta domain, also the clip bound. -/
def DATA : ℝ := 50

/-- main.py line 52. -/
def learning_rate : ℝ := 0.002

/-- main.py line 53. -/
def momentum : ℝ := 0.99

/-- `np.clip(x, lo, hi)` = `min(hi, max(lo, x))` (main.py line 100). -/
def clip (x lo hi : ℝ) : ℝ := min hi (max lo x)

/-- The mutable run state of `create_gradient_descent_animation`:
`current_theta` (line 64) and `velocity` (line 66), both mutated by `animate`. -/
structure OptState where
  theta : ℝ
  velocity : ℝ

/-- One `animate` update (main.py lines 92-100), parameterised by the run
constants so that the same update rule can also be instantiated from an
explicit configuration: gradient at the pre-update theta, then
`velocity = mom * velocity - lr * gradient`, then `theta = theta + velocity`,
then `theta = np.clip(theta, -halfWidth, halfWidth)`. -/
def stepWith (lr mom halfWidth : ℝ) (s : OptState) : OptState :=
  let gradient := loss_gradient s.theta
  let v := mom * s.velocity - lr * gradient
  { theta := clip (s.theta + v) (-halfWidth) halfWidth, velocity := v }

/-- The update `animate` actually performs, with the source's constants. -/
def step : OptState → OptState := stepWith learning_rate momentum DATA

/-- The per-frame data the animation displays (main.py lines 107-115):
iteration count, theta after the update, loss at the updated theta, the
gradient that was computed at the pre-update theta, and the updated velocity.
`step_index` is the number of completed updates when the record is emitted. -/
structure FrameRecord where
  step_index : ℕ
  theta : ℝ
  loss : ℝ
  gradient : ℝ
  velocity : ℝ

/-- The record one `animate` call starting from state `s` emits, tagged with
the number `i` of updates completed once this call's update is done. -/
def emitFrameWith (lr mom halfWidth : ℝ) (i : ℕ) (s : OptState) : FrameRecord :=
  let s2 := stepWith lr mom halfWidth s
  { step_index := i, theta := s2.theta, loss := loss_function s2.theta,
    gradient := loss_gradient s.theta, velocity := s2.velocity }

/-- `n` consecutive `animate` calls starting from state `s`, after `i` updates
have already been completed, in emission order. -/
def runFromWith (lr mom halfWidth : ℝ) : OptState → ℕ → ℕ → List FrameRecord
  | _, _, 0 => []
  | s, i, n + 1 =>
      emitFrameWith lr mom halfWidth (i + 1) s ::
        runFromWith lr mom halfWidth (stepWith lr mom halfWidth s) (i + 1) n

/-- The state `create_gradient_descent_animation` sets up (lines 51, 64-66):
`current_theta = initial_theta`, `velocity = 0.0`. -/
def initState (theta0 : ℝ) : OptState := { theta := theta0, velocity := 0 }

/-- The step-0 display state drawn by `init` (main.py lines 79-85) before any
update: the initial theta, its loss and gradient, zero updates completed. -/
def initFrame (theta0 : ℝ) : FrameRecord :=
  { step_index := 0, theta := theta0, loss := loss_function theta0,
    gradient := loss_gradient theta0, velocity := 0 }

/-- A run of the engine: `FuncAnimation(..., frames=n)` calls `animate` once
per frame, `n` times, starting from `initState theta0`. -/
def runEngine (theta0 : ℝ) (n : ℕ) : List FrameRecord :=
  runFromWith learning_rate momentum DATA (initState theta0) 0 n

/-- Everything shown over a whole run: the `init` display state first, then
the `n` per-step records in order. -/
def display (theta0 : ℝ) (n : ℕ) : FrameRecord × List FrameRecord :=
  (initFrame theta0, runEngine theta0 n)

/-- The visible coordinate window set by `animate` (main.py lines 117-125). -/
structure ViewWindow where
  x_min : ℝ
  x_max : ℝ
  y_min : ℝ
  y_max : ℝ

/-- main.py line 118. -/
def margin_x : ℝ := 2.0

/-- main.py line 119. -/
def margin_y : ℝ := 1.0

/-- main.py lines 122-125: `set_xlim(theta - margin_x, theta + margin_x)` and
`set_ylim(loss - margin_y, loss + margin_y * 3)`, from the latest record. -/
def viewWindow (r : FrameRecord) : ViewWindow :=
  { x_min := r.theta - margin_x, x_max := r.theta + margin_x,
    y_min := r.loss - margin_y, y_max := r.loss + margin_y * 3 }

/-- Modelled from the spec: the configuration surface of §6 — recognized
options consumed at initialization; `src/main.py` instead hardcodes them as
the module constants `DATA = 50`, `learning_rate = 0.002`, `momentum = 0.99`,
`TOTAL_FRAMES = 450` and `FPS = 15`. -/
structure Config where
  domain_half_width : ℝ
  learning_rate : ℝ
  momentum : ℝ
  total_frames : ℤ
  frames_per_second : ℝ

/-- Modelled from the spec: the single failure kind of §7. -/
inductive InitError where
  | InvalidConfiguration

/-- Modelled from the spec (§7): the configuration-misuse condition —
`domain_half_width ≤ 0`, `learning_rate ≤ 0`, `momentum` outside `[0, 1)`,
or `total_frames < 0`. -/
def invalidConfig (c : Config) : Prop :=
  c.domain_half_width ≤ 0 ∨ c.learning_rate ≤ 0 ∨
    c.momentum < 0 ∨ 1 ≤ c.momentum ∨ c.total_frames < 0

open Classical in
/-- Modelled from the spec: `src/main.py` has no configuration surface or
validation code, so initialization-time validation is modelled from §6-§7:
it fails with `InvalidConfiguration` when the configuration is misused —
before any frame record exists, since the error carries none — and otherwise
yields the step-0 display state and the full record sequence, produced by
the source's update rule run with the configured constants. -/
def initAnimation (c : Config) (theta0 : ℝ) :
    Except InitError (FrameRecord × List FrameRecord) :=
  if invalidConfig c then .error .InvalidConfiguration
  else .ok (initFrame theta0,
    runFromWith c.learning_rate c.momentum c.domain_half_width (initState theta0) 0
      c.total_frames.toNat)

/-! ### Helper lemmas -/

/-- Pointwise bounds on the gradient: the three cosine terms contribute at
most `1.5 + 1.5 + 1.4 = 4.4` in absolute value around the linear term. -/
theorem loss_gradient_bounds (x : ℝ) :
    0.2 * x - 4.4 ≤ loss_gradient x ∧ loss_gradient x ≤ 0.2 * x + 4.4 := by
  have h3 := Real.neg_one_le_cos (3 * x)
  have h3u := Real.cos_le_one (3 * x)
  have h5 := Real.neg_one_le_cos (5 * x)
  have h5u := Real.cos_le_one (5 * x)
  have h7 := Real.neg_one_le_cos (7 * x)
  have h7u := Real.cos_le_one (7 * x)
  unfold loss_gradient
  constructor <;> nlinarith

/-- A clip with ordered bounds lands in the interval. -/
theorem clip_mem (x lo hi : ℝ) (h : lo ≤ hi) : lo ≤ clip x lo hi ∧ clip x lo hi ≤ hi := by
  unfold clip
  exact ⟨le_min h (le_max_left lo x), min_le_left hi _⟩

/-- The velocity after one update, written with the source's constants. -/
theorem step_velocity_eq (s : OptState) :
    (step s).velocity = momentum * s.velocity - learning_rate * loss_gradient s.theta := rfl

/-- The theta after one update is the clipped sum of the old theta and the
new velocity. -/
theorem step_theta_eq (s : OptState) :
    (step s).theta = clip (s.theta + (step s).velocity) (-50) 50 := by
  simp [step, stepWith, DATA, clip]

/-- One update keeps theta in `[-50, 50]` and velocity within `2.88`. -/
theorem step_preserves (s : OptState) (h1 : -50 ≤ s.theta) (h2 : s.theta ≤ 50)
    (hv : |s.velocity| ≤ 2.88) :
    -50 ≤ (step s).theta ∧ (step s).theta ≤ 50 ∧ |(step s).velocity| ≤ 2.88 := by
  have hg := loss_gradient_bounds s.theta
  have habs := abs_le.mp hv
  have hvel : |(step s).velocity| ≤ 2.88 := by
    rw [step_velocity_eq, abs_le, momentum, learning_rate]
    constructor <;> nlinarith [hg.1, hg.2, habs.1, habs.2]
  have hmem := clip_mem (s.theta + (step s).velocity) (-50) 50 (by norm_num)
  exact ⟨by rw [step_theta_eq]; exact hmem.1, by rw [step_theta_eq]; exact hmem.2, hvel⟩

/-- The run invariant: from any state with theta in `[-50, 50]` and velocity
within `2.88`, every iterate of `step` stays there. -/
theorem iterate_invariant (s : OptState) (h1 : -50 ≤ s.theta) (h2 : s.theta ≤ 50)
    (hv : |s.velocity| ≤ 2.88) (n : ℕ) :
    -50 ≤ (step^[n] s).theta ∧ (step^[n] s).theta ≤ 50 ∧ |(step^[n] s).velocity| ≤ 2.88 := by
  induction n generalizing s with
  | zero => exact ⟨h1, h2, hv⟩
  | succ n ih =>
      rw [Function.iterate_succ_apply]
      have hs := step_preserves s h1 h2 hv
      exact ih (step s) hs.1 hs.2.1 hs.2.2

/-! ### Claims -/

/-- C2: for every real θ the loss surface returns
`loss(θ) = 0.5·sin(3θ) + 0.3·sin(5θ) + 0.2·sin(7θ) + 0.1·θ²` and
`gradient(θ) = 1.5·cos(3θ) + 1.5·cos(5θ) + 1.4·cos(7θ) + 0.2·θ`; both are
pure functions of θ in this embedding, and both results are finite for
finite input, witnessed by the explicit bounds `|loss(θ)| ≤ 1 + 0.1·θ²` and
`|gradient(θ)| ≤ 4.4 + 0.2·|θ|`. -/
theorem loss_surface_contract (x : ℝ) :
    loss_function x =
      0.5 * Real.sin (3 * x) + 0.3 * Real.sin (5 * x) + 0.2 * Real.sin (7 * x) + 0.1 * x ^ 2 ∧
    loss_gradient x =
      1.5 * Real.cos (3 * x) + 1.5 * Real.cos (5 * x) + 1.4 * Real.cos (7 * x) + 0.2 * x ∧
    |loss_function x| ≤ 1 + 0.1 * x ^ 2 ∧ |loss_gradient x| ≤ 4.4 + 0.2 * |x| := by
  refine ⟨rfl, by unfold loss_gradient; ring_nf, ?_, ?_⟩
  · have s3 := Real.neg_one_le_sin (3 * x)
    have s3u := Real.sin_le_one (3 * x)
    have s5 := Real.neg_one_le_sin (5 * x)
    have s5u := Real.sin_le_one (5 * x)
    have s7 := Real.neg_one_le_sin (7 * x)
    have s7u := Real.sin_le_one (7 * x)
    have hx := sq_nonneg x
    rw [abs_le]
    unfold loss_function
    constructor <;> nlinarith
  · have hg := loss_gradient_bounds x
    have ha := le_abs_self x
    have hb := neg_abs_le x
    rw [abs_le]
    constructor <;> nlinarith [hg.1, hg.2]

/-- C8: the view window derived from a frame record is exactly
`[theta − 2, theta + 2] × [loss − 1, loss + 3]`; hence `x_min < x_max`,
`y_min < y_max`, and the record's point `(theta, loss)` lies inside it. -/
theorem view_window_containment (r : FrameRecord) :
    (viewWindow r).x_min = r.theta - 2.0 ∧ (viewWindow r).x_max = r.theta + 2.0 ∧
    (viewWindow r).y_min = r.loss - 1.0 ∧ (viewWindow r).y_max = r.loss + 3.0 ∧
    (viewWindow r).x_min < (viewWindow r).x_max ∧ (viewWindow r).y_min < (viewWindow r).y_max ∧
    (viewWindow r).x_min ≤ r.theta ∧ r.theta ≤ (viewWindow r).x_max ∧
    (viewWindow r).y_min ≤ r.loss ∧ r.loss ≤ (viewWindow r).y_max := by
  simp only [viewWindow, margin_x, margin_y]
  norm_num
  constructor <;> linarith

/-- C1: every update computes the gradient at the pre-update theta, replaces
velocity by `momentum·velocity − learning_rate·gradient` with
`momentum = 0.99` and `learning_rate = 0.002`, replaces theta by
`theta + velocity`, and then clamps theta to `[-50, 50]`; in the scenario
`theta0 = 10`, `velocity0 = 0`, the first step's gradient is
`1.5·cos 30 + 1.5·cos 50 + 1.4·cos 70 + 2.0` (radians), the new velocity is
`−0.002` times that gradient, and the new theta is
`clamp(10 + velocity1, −50, 50)`. -/
theorem step_update_rule :
    (∀ s : OptState,
      (step s).velocity = momentum * s.velocity - learning_rate * loss_gradient s.theta ∧
      (step s).theta = clip (s.theta + (step s).velocity) (-50) 50) ∧
    momentum = 0.99 ∧ learning_rate = 0.002 ∧ DATA = 50 ∧
    loss_gradient 10 = 1.5 * Real.cos 30 + 1.5 * Real.cos 50 + 1.4 * Real.cos 70 + 2.0 ∧
    (step (initState 10)).velocity = -0.002 * loss_gradient 10 ∧
    (step (initState 10)).theta = clip (10 + (step (initState 10)).velocity) (-50) 50 := by
  refine ⟨fun s => ⟨step_velocity_eq s, step_theta_eq s⟩, rfl, rfl, rfl, ?_, ?_, ?_⟩
  · unfold loss_gradient
    norm_num
  · rw [step_velocity_eq]
    unfold initState momentum learning_rate
    ring_nf
  · have h := step_theta_eq (initState 10)
    simpa [initState] using h

/-- C3: for any initial `theta0 ∈ [-50, 50]` (with the run's `velocity0 = 0`)
and any finite number of steps, theta lies in `[-50, 50]` after every step. -/
theorem theta_always_bounded (theta0 : ℝ) (h1 : -50 ≤ theta0) (h2 : theta0 ≤ 50) (n : ℕ) :
    -50 ≤ (step^[n] (initState theta0)).theta ∧ (step^[n] (initState theta0)).theta ≤ 50 := by
  have h := iterate_invariant (initState theta0) h1 h2 (by simp [initState]; norm_num) n
  exact ⟨h.1, h.2.1⟩

/-- Witness for C3 at `theta0 = 10`, three steps. -/
theorem theta_always_bounded_witness :
    -50 ≤ (step^[3] (initState 10)).theta ∧ (step^[3] (initState 10)).theta ≤ 50 :=
  theta_always_bounded 10 (by norm_num) (by norm_num) 3

/-- C10: although the spec leaves velocity's range unconstrained, the code
bounds it: theta at every gradient evaluation lies in `[-50, 50]`, where
`|gradient| ≤ 14.4`, so the recurrence
`|velocity'| ≤ 0.99·|velocity| + 0.002·14.4` together with `velocity0 = 0`
keeps `|velocity| ≤ 0.002·14.4/(1 − 0.99) = 2.88` after every step. -/
theorem velocity_always_bounded (theta0 : ℝ) (h1 : -50 ≤ theta0) (h2 : theta0 ≤ 50) (n : ℕ) :
    |(step^[n] (initState theta0)).velocity| ≤ 2.88 :=
  (iterate_invariant (initState theta0) h1 h2 (by simp [initState]; norm_num) n).2.2

/-- Witness for C10 at `theta0 = 10`, two steps. -/
theorem velocity_always_bounded_witness :
    |(step^[2] (initState 10)).velocity| ≤ 2.88 :=
  velocity_always_bounded 10 (by norm_num) (by norm_num) 2

/-- C4 counterexample: at the boundary `theta = 50` with velocity
`0.001 > 0` pushing outward, the next step does not set theta to 50 again:
the gradient at 50 is at least `0.2·50 − 4.4 = 5.6`, so the updated velocity
`0.99·0.001 − 0.002·gradient(50)` is negative and theta moves strictly back
inside the interval instead of being clamped. -/
theorem clamp_sticking_counterexample :
    (OptState.mk 50 0.001).theta = 50 ∧ 0 < (OptState.mk 50 0.001).velocity ∧
    (step (OptState.mk 50 0.001)).theta ≠ 50 := by
  have hg := loss_gradient_bounds 50
  have hv : (step (OptState.mk 50 0.001)).velocity
      = 0.99 * 0.001 - 0.002 * loss_gradient 50 := by
    rw [step_velocity_eq]
    simp [momentum, learning_rate]
  have hvneg : (step (OptState.mk 50 0.001)).velocity < 0 := by
    rw [hv]; nlinarith [hg.1]
  have hvlb : -1 ≤ (step (OptState.mk 50 0.001)).velocity := by
    rw [hv]; nlinarith [hg.2]
  have hsθ : (OptState.mk (50 : ℝ) 0.001).theta = 50 := rfl
  have hθ : (step (OptState.mk 50 0.001)).theta
      = 50 + (step (OptState.mk 50 0.001)).velocity := by
    rw [step_theta_eq, hsθ]
    unfold clip
    rw [max_eq_right (by linarith), min_eq_right (by linarith)]
  refine ⟨rfl, by norm_num, ?_⟩
  rw [hθ]
  intro hcontra
  have : (step (OptState.mk 50 0.001)).velocity = 0 := by linarith
  linarith

/-- C4 amended: clamping never changes velocity — after every step the
velocity equals `momentum·velocity_prev − learning_rate·g(theta_prev)`
whether or not theta was clamped — and in the clamp-sticking scenario at
`theta = 50` the parameter sticks at the boundary provided the outward
velocity is large enough that the updated velocity
`0.99·v − 0.002·gradient(50)` is still nonnegative; the next step then sets
theta = 50 again (clamped) while the velocity continues to evolve normally
(not reset to 0 and not inverted). -/
theorem clamp_preserves_velocity (s : OptState) (v : ℝ)
    (hv : 0 ≤ momentum * v - learning_rate * loss_gradient DATA) :
    ((step s).velocity = momentum * s.velocity - learning_rate * loss_gradient s.theta) ∧
    (step (OptState.mk DATA v)).theta = DATA ∧
    (step (OptState.mk DATA v)).velocity = momentum * v - learning_rate * loss_gradient DATA := by
  refine ⟨step_velocity_eq s, ?_, step_velocity_eq (OptState.mk DATA v)⟩
  simp only [DATA] at hv ⊢
  have hv0 : 0 ≤ (step (OptState.mk (50 : ℝ) v)).velocity := by
    rw [step_velocity_eq]; exact hv
  rw [step_theta_eq]
  have hsθ : (OptState.mk (50 : ℝ) v).theta = 50 := rfl
  rw [hsθ]
  unfold clip
  rw [max_eq_right (by linarith), min_eq_left (by linarith)]

/-- Witness for the amended C4 at `v = 1`: the updated velocity
`0.99 − 0.002·gradient(50)` is nonnegative since `gradient(50) ≤ 14.4`. -/
theorem clamp_preserves_velocity_witness :
    (step (OptState.mk DATA 1)).theta = DATA ∧
    (step (OptState.mk DATA 1)).velocity = momentum * 1 - learning_rate * loss_gradient DATA :=
  (clamp_preserves_velocity (OptState.mk DATA 1) 1 (by
      have hg := (loss_gradient_bounds 50).2
      simp only [momentum, learning_rate, DATA]
      nlinarith)).2

/-- C7: determinism given fixed initial state — two engines holding the same
`(theta, velocity)` state under the run's (fixed, identical) configuration
produce identical frame-record sequences for the same step count; each step
of this embedding is a pure function of the current state with no hidden
external input, so the whole sequence is a function of the initial
`theta0` draw alone. -/
theorem deterministic_replay (s t : OptState) (hθ : s.theta = t.theta)
    (hv : s.velocity = t.velocity) (i n : ℕ) :
    runFromWith learning_rate momentum DATA s i n =
      runFromWith learning_rate momentum DATA t i n := by
  have hst : s = t := by
    cases s
    cases t
    simp only at hθ hv
    rw [hθ, hv]
  rw [hst]

/-- Witness for C7: two engines both at `initState 10`, five steps each. -/
theorem deterministic_replay_witness :
    runFromWith learning_rate momentum DATA (initState 10) 0 5 =
      runFromWith learning_rate momentum DATA (initState 10) 0 5 :=
  deterministic_replay (initState 10) (initState 10) rfl rfl 0 5

/-- The run emits one record per `animate` call. -/
theorem runFromWith_length (lr mom halfWidth : ℝ) (s : OptState) (i n : ℕ) :
    (runFromWith lr mom halfWidth s i n).length = n := by
  induction n generalizing s i with
  | zero => rfl
  | succ n ih => simp [runFromWith, ih]

/-- The step indices of the records emitted after `i` completed updates are
exactly `i+1, …, i+n`. -/
theorem runFromWith_map_index (lr mom halfWidth : ℝ) (s : OptState) (i n : ℕ) :
    (runFromWith lr mom halfWidth s i n).map FrameRecord.step_index = List.range' (i + 1) n := by
  induction n generalizing s i with
  | zero => rfl
  | succ n ih =>
      rw [List.range'_succ]
      simp [runFromWith, emitFrameWith, ih]

/-- C5: a run configured for `n` total frames emits exactly `n` frame
records — no more, no fewer — whose step indices are exactly `1, 2, …, n`
(strictly increasing, starting at 1), and the step-0 `initialize` state is
additionally made available as the initial display state, ahead of the
per-step records; the configured total in the source is
`TOTAL_FRAMES = FPS · DURATION = 450`. -/
theorem run_step_count_exact (theta0 : ℝ) (n : ℕ) :
    (runEngine theta0 n).length = n ∧
    (runEngine theta0 n).map FrameRecord.step_index = List.range' 1 n ∧
    ((runEngine theta0 n).map FrameRecord.step_index).Pairwise (fun a b => a < b) ∧
    (display theta0 n).1 = initFrame theta0 ∧
    (initFrame theta0).step_index = 0 ∧
    (display theta0 n).2 = runEngine theta0 n ∧
    TOTAL_FRAMES = 450 := by
  unfold runEngine display
  refine ⟨runFromWith_length _ _ _ _ _ _, runFromWith_map_index _ _ _ _ _ _, ?_, rfl, rfl, rfl, rfl⟩
  rw [runFromWith_map_index]
  exact List.pairwise_lt_range' _ _ _ (by omega)

/-- C9: the gradient function is the exact analytic derivative of the loss
function at every θ — `HasDerivAt loss_function (loss_gradient x) x` — with
no finite-difference approximation involved. -/
theorem gradient_is_exact_derivative (x : ℝ) :
    HasDerivAt loss_function (loss_gradient x) x := by
  have hin3 : HasDerivAt (fun y : ℝ => 3 * y) 3 x := by
    simpa using (hasDerivAt_id x).const_mul (3 : ℝ)
  have hin5 : HasDerivAt (fun y : ℝ => 5 * y) 5 x := by
    simpa using (hasDerivAt_id x).const_mul (5 : ℝ)
  have hin7 : HasDerivAt (fun y : ℝ => 7 * y) 7 x := by
    simpa using (hasDerivAt_id x).const_mul (7 : ℝ)
  have h3 : HasDerivAt (fun y : ℝ => Real.sin (3 * y)) (Real.cos (3 * x) * 3) x :=
    (Real.hasDerivAt_sin (3 * x)).comp x hin3
  have h5 : HasDerivAt (fun y : ℝ => Real.sin (5 * y)) (Real.cos (5 * x) * 5) x :=
    (Real.hasDerivAt_sin (5 * x)).comp x hin5
  have h7 : HasDerivAt (fun y : ℝ => Real.sin (7 * y)) (Real.cos (7 * x) * 7) x :=
    (Real.hasDerivAt_sin (7 * x)).comp x hin7
  have hq : HasDerivAt (fun y : ℝ => y ^ 2) (2 * x) x := by
    simpa using hasDerivAt_pow 2 x
  have hsum := (((h3.const_mul (0.5 : ℝ)).add (h5.const_mul (0.3 : ℝ))).add
      (h7.const_mul (0.2 : ℝ))).add (hq.const_mul (0.1 : ℝ))
  have hfun : loss_function = fun y : ℝ =>
      0.5 * Real.sin (3 * y) + 0.3 * Real.sin (5 * y) + 0.2 * Real.sin (7 * y) +
        0.1 * y ^ 2 := rfl
  have hval : loss_gradient x =
      0.5 * (Real.cos (3 * x) * 3) + 0.3 * (Real.cos (5 * x) * 5) +
        0.2 * (Real.cos (7 * x) * 7) + 0.1 * (2 * x) := by
    unfold loss_gradient; ring
  rw [hfun, hval]
  exact hsum

/-- C6: initialization fails with `InvalidConfiguration` — structurally
before any frame record is produced, since the error constructor carries no
records, and never mid-run — exactly when `domain_half_width ≤ 0`,
`learning_rate ≤ 0`, `momentum` lies outside `[0, 1)`, or
`total_frames < 0`; in particular `momentum = 1.0` and `learning_rate = 0`
(each with the source's other constants) both raise it, while a valid
configuration yields the step-0 state and the full record sequence. -/
theorem invalid_configuration_exact (c : Config) (theta0 : ℝ) :
    (initAnimation c theta0 = .error .InvalidConfiguration ↔
      (c.domain_half_width ≤ 0 ∨ c.learning_rate ≤ 0 ∨
        c.momentum < 0 ∨ 1 ≤ c.momentum ∨ c.total_frames < 0)) ∧
    initAnimation (Config.mk 50 0.002 1.0 450 15) theta0 = .error .InvalidConfiguration ∧
    initAnimation (Config.mk 50 0 0.99 450 15) theta0 = .error .InvalidConfiguration ∧
    (¬ invalidConfig c →
      initAnimation c theta0 =
        .ok (initFrame theta0,
          runFromWith c.learning_rate c.momentum c.domain_half_width (initState theta0) 0
            c.total_frames.toNat)) := by
  refine ⟨?_, ?_, ?_, ?_⟩
  · by_cases h : invalidConfig c
    · simp only [initAnimation, if_pos h]
      exact iff_of_true trivial h
    · simp only [initAnimation, if_neg h]
      exact iff_of_false (by simp) h
  · have hbad : invalidConfig (Config.mk 50 0.002 1.0 450 15) := by
      norm_num [invalidConfig]
    simp only [initAnimation, if_pos hbad]
  · have hbad : invalidConfig (Config.mk 50 0 0.99 450 15) := by
      norm_num [invalidConfig]
    simp only [initAnimation, if_pos hbad]
  · intro h
    simp only [initAnimation, if_neg h]

end

end GradientDescent
